import Mathlib

/-!
Verification development for the WayMux control plane (tab lifecycle manager and
control protocol server), shallowly embedded from the C sources:

* `src/tab.c` / `src/tab.h` — tab registry operations
* `src/test/tab_test_stubs.c` — the "testable implementations" of `tab_next` /
  `tab_prev` used by the repository's own unit tests
* `src/control.c` — control protocol server (line protocol, command handlers)
* `src/waymuxctl.c` — CLI client

Machine state is modelled explicitly: the `cg_server` tab list becomes a
`List Tab` (list order = `wl_list` order), pointers to tabs become `Tab` values
identified by a unique `id` (pointer identity), and calls into the external
View / Launcher / Spawner collaborators become explicit `Effect` values in the
order the C code issues them.  Byte buffers are `List Char`; every string the
protocol handles is ASCII, so one char corresponds to one byte.
-/

namespace Waymux

/-- Characters standing for the C byte buffers (`char[]`).  All protocol text is
ASCII, so chars coincide with bytes. -/
abbrev Chars := List Char

/-- External View collaborator (`struct cg_view`), as far as the control plane
reads it: an identity (pointer), and the title / app-id strings that
`view_get_title` / `view_get_app_id` return (`none` models a NULL return). -/
structure View where
  vid : Nat
  title : Option Chars
  appId : Option Chars
deriving DecidableEq, Repr

/-- One registry entry, `struct cg_tab` from `src/tab.h`: the optional bound
view, the `is_visible` and `is_background` flags.  `id` models pointer
identity of the heap-allocated tab (unique per tab).  The `scene_tree` field is
display-backend state outside this model. -/
structure Tab where
  id : Nat
  view : Option View
  isVisible : Bool
  isBackground : Bool
deriving DecidableEq, Repr

/-- The registry part of `struct cg_server`: the ordered `tabs` list and the
`active_tab` pointer (modelled by the active tab's `id`). -/
structure Server where
  tabs : List Tab
  active : Option Nat
deriving DecidableEq, Repr

/-- Calls the control plane makes on its external collaborators, in program
order: `view_activate(view, bool)`, `view_position(view)`,
`view->impl->close(view)`, `launcher_show(...)`, and `fork`/`execvp` of a
spawned command.  Scene-graph calls (`wlr_scene_node_*`) belong to the
display backend and are outside the model. -/
inductive Effect where
  | viewActivate (vid : Nat) (enabled : Bool)
  | viewPosition (vid : Nat)
  | viewClose (vid : Nat)
  | showLauncher
  | spawn (argv : List Chars)
deriving DecidableEq, Repr

/-- Ids of the tabs in list order. -/
def Server.ids (s : Server) : List Nat := s.tabs.map Tab.id

/-- Dereference the `active_tab` pointer: the list node with the given id. -/
def find_by_id (s : Server) (a : Nat) : Option Tab :=
  s.tabs.find? (fun u => u.id == a)

/-- `tab_create` (src/tab.c:22-57): allocates a tab with `is_visible = false`
(and `is_background = false` from `calloc`), binds the view, and appends it at
the end of `server->tabs` (`wl_list_insert(server->tabs.prev, ...)`).
Allocation is modelled as succeeding; `id` is the fresh pointer identity. -/
def tab_create (s : Server) (id : Nat) (view : Option View) : Server :=
  { s with tabs := s.tabs ++ [{ id := id, view := view, isVisible := false, isBackground := false }] }

/-- `tab_destroy` (src/tab.c:59-100): clears `active_tab` if it is this tab,
removes the tab from the list (`wl_list_remove`), and only then, if a view is
bound, issues `view->impl->close(view)`.  The returned server is both the state
in which the close call is issued and the final state — nothing mutates the
registry after the removal.  Memory release (deferred to `view_unmap`) is not
observable in the model. -/
def tab_destroy (s : Server) (t : Tab) : Server × List Effect :=
  let s1 := if s.active = some t.id then { s with active := none } else s
  let s2 := { s1 with tabs := s1.tabs.eraseP (fun u => u.id == t.id) }
  match t.view with
  | some v => (s2, [Effect.viewClose v.vid])
  | none => (s2, [])

/-- Write `u->is_visible = b` through a tab pointer, as an update of the list
entry with the pointed-to identity. -/
def upd_visible (k : Nat) (b : Bool) (u : Tab) : Tab :=
  if u.id = k then { u with isVisible := b } else u

/-- Write `u->is_background = b` through a tab pointer. -/
def upd_background (k : Nat) (b : Bool) (u : Tab) : Tab :=
  if u.id = k then { u with isBackground := b } else u

/-- `tab_activate` (src/tab.c:102-144): if a different tab is active, clear its
`is_visible` and call `view_activate(old_view, false)`; then unconditionally
set `tab->is_visible = true`, `server->active_tab = tab`, and, if a view is
bound, call `view_activate(view, true)` and `view_position(view)`.  There is no
early return when `tab` is already the active tab. -/
def tab_activate (s : Server) (t : Tab) : Server × List Effect :=
  let dePair : Server × List Effect :=
    match s.active with
    | some a =>
      if a ≠ t.id then
        ({ s with tabs := s.tabs.map (upd_visible a false) },
         match (find_by_id s a).bind Tab.view with
         | some v => [Effect.viewActivate v.vid false]
         | none => [])
      else (s, [])
    | none => (s, [])
  let s2 :=
    { dePair.1 with
      tabs := dePair.1.tabs.map (upd_visible t.id true),
      active := some t.id }
  let acts :=
    match t.view with
    | some v => [Effect.viewActivate v.vid true, Effect.viewPosition v.vid]
    | none => []
  (s2, dePair.2 ++ acts)

/-- Modelled from the spec: `tab_set_background` is declared in `src/tab.h` and
called from `src/background_dialog.c`, but its definition is not among the
sources under src/ (only the test stub is).  Spec §4.1: "sets
`tab.background = flag`.  Does not itself change `active`/`visible`." -/
def tab_set_background (s : Server) (t : Tab) (flag : Bool) : Server :=
  { s with tabs := s.tabs.map (upd_background t.id flag) }

/-- `tab_count` (src/tab.c:188-197): counts the list nodes. -/
def tab_count (s : Server) : Nat := s.tabs.length

/-- `tab_from_view` (src/tab.c:199-213): first tab in list order whose bound
view is the given view (pointer comparison, modelled by `vid`). -/
def tab_from_view (s : Server) (vid : Nat) : Option Tab :=
  s.tabs.find? (fun u =>
    match u.view with
    | some v => v.vid == vid
    | none => false)

/-- Whether the tab at position `j` has `is_background` set (`false` off the
list). -/
def isBackgroundAt (tabs : List Tab) (j : Nat) : Bool :=
  match tabs.get? j with
  | some u => u.isBackground
  | none => false

/-- `tab_next` (src/tab.c:146-165), position form: the current tab is the node
at index `i`; the result is the index of `current->link.next`, wrapping from
the last node to the first.  This production implementation never reads
`is_background`. -/
def tab_next (tabs : List Tab) (i : Nat) : Nat :=
  if i + 1 < tabs.length then i + 1 else 0

/-- `tab_prev` (src/tab.c:167-186), position form: the node at
`current->link.prev`, wrapping from the first node to the last. -/
def tab_prev (tabs : List Tab) (i : Nat) : Nat :=
  if i = 0 then tabs.length - 1 else i - 1

namespace TestStubs

/-- One step forward on the circular list (wraparound at the tail). -/
def next_index (n i : Nat) : Nat := if i + 1 < n then i + 1 else 0

/-- One step backward on the circular list (wraparound at the head). -/
def prev_index (n i : Nat) : Nat := if i = 0 then n - 1 else i - 1

/-- The skip loop of the testable `tab_next` (src/test/tab_test_stubs.c:87-95):
`while (next && next->is_background && next != start)` advance.  The fuel bound
`tabs.length` covers a full circuit back to `start`. -/
def skip_next (tabs : List Tab) (start : Nat) : Nat → Nat → Nat
  | 0, j => j
  | fuel + 1, j =>
    if isBackgroundAt tabs j = true ∧ j ≠ start then
      skip_next tabs start fuel (next_index tabs.length j)
    else j

/-- The skip loop of the testable `tab_prev` (src/test/tab_test_stubs.c:124-132). -/
def skip_prev (tabs : List Tab) (start : Nat) : Nat → Nat → Nat
  | 0, j => j
  | fuel + 1, j =>
    if isBackgroundAt tabs j = true ∧ j ≠ start then
      skip_prev tabs start fuel (prev_index tabs.length j)
    else j

/-- `tab_next` from src/test/tab_test_stubs.c:68-103: step to the adjacent tab,
skip background tabs (stopping when the walk reaches `start` again), and if the
walk ended on a background tab return `current` itself. -/
def tab_next (tabs : List Tab) (i : Nat) : Nat :=
  let j := skip_next tabs i tabs.length (next_index tabs.length i)
  if isBackgroundAt tabs j then i else j

/-- `tab_prev` from src/test/tab_test_stubs.c:105-140. -/
def tab_prev (tabs : List Tab) (i : Nat) : Nat :=
  let j := skip_prev tabs i tabs.length (prev_index tabs.length i)
  if isBackgroundAt tabs j then i else j

end TestStubs

/-- Concrete registry: tab 0 foreground, tab 1 background. -/
def tabsFB : List Tab :=
  [{ id := 0, view := none, isVisible := false, isBackground := false },
   { id := 1, view := none, isVisible := false, isBackground := true }]

/-- Concrete registry: both tabs background. -/
def tabsBB : List Tab :=
  [{ id := 0, view := none, isVisible := false, isBackground := true },
   { id := 1, view := none, isVisible := false, isBackground := true }]

/-- C1. The claim requires `next`/`prev` to skip background tabs and to return
`current` itself when every other tab is background.  On the registry
`[tab0 foreground, tab1 background]`, the production `tab_next`/`tab_prev` of
src/tab.c:146-186 return position 1 — the background tab — because they never
read `is_background`; the claimed behaviour (return `current`, position 0) is
exactly what the repository's own testable implementations in
src/test/tab_test_stubs.c compute, and what the unit tests
`test_tab_next_skip_background` / `test_tab_next_all_background` assert.  The
same divergence shows on an all-background registry, where the claim requires
`next(t) = t`. -/
theorem c1_next_prev_skip_background_code_bug :
    tab_next tabsFB 0 = 1 ∧ tab_prev tabsFB 0 = 1 ∧ isBackgroundAt tabsFB 1 = true ∧
    TestStubs.tab_next tabsFB 0 = 0 ∧ TestStubs.tab_prev tabsFB 0 = 0 ∧
    tab_next tabsBB 0 = 1 ∧ TestStubs.tab_next tabsBB 0 = 0 ∧
    TestStubs.tab_prev tabsBB 0 = 0 := by
  decide

/-! ### Reachable registry states

The registry is mutated only through `tab_create`, `tab_activate`,
`tab_set_background` and `tab_destroy` (spec §5: all call sites go through the
same registry operations).  `tab_activate` / `tab_set_background` /
`tab_destroy` are always called on a tab currently in the list, and every
created tab is a fresh allocation (fresh pointer identity). -/
inductive Reach : Server → Prop where
  | init : Reach { tabs := [], active := none }
  | create {s : Server} (id : Nat) (v : Option View) :
      Reach s → id ∉ s.ids → Reach (tab_create s id v)
  | activate {s : Server} {t : Tab} : Reach s → t ∈ s.tabs → Reach (tab_activate s t).1
  | set_background {s : Server} {t : Tab} (b : Bool) :
      Reach s → t ∈ s.tabs → Reach (tab_set_background s t b)
  | destroy {s : Server} {t : Tab} : Reach s → t ∈ s.tabs → Reach (tab_destroy s t).1

/-- The registry invariant: tab identities are distinct, the active reference
points into the list, only the active tab is visible, and the active tab is
visible. -/
def Inv (s : Server) : Prop :=
  s.ids.Nodup ∧
  (∀ a, s.active = some a → a ∈ s.ids) ∧
  (∀ t ∈ s.tabs, t.isVisible = true → s.active = some t.id) ∧
  (∀ a, s.active = some a → ∃ t ∈ s.tabs, t.id = a ∧ t.isVisible = true)

lemma upd_visible_preserves_id (k : Nat) (b : Bool) (u : Tab) :
    (upd_visible k b u).id = u.id := by
  unfold upd_visible; by_cases h : u.id = k <;> simp [h]

lemma upd_visible_preserves_bg (k : Nat) (b : Bool) (u : Tab) :
    (upd_visible k b u).isBackground = u.isBackground := by
  unfold upd_visible; by_cases h : u.id = k <;> simp [h]

lemma upd_visible_vis (k : Nat) (b : Bool) (u : Tab) :
    (upd_visible k b u).isVisible = if u.id = k then b else u.isVisible := by
  unfold upd_visible; by_cases h : u.id = k <;> simp [h]

lemma upd_visible_of_ne {k : Nat} {b : Bool} {u : Tab} (h : u.id ≠ k) :
    upd_visible k b u = u := by
  simp [upd_visible, h]

lemma upd_background_preserves_id (k : Nat) (b : Bool) (u : Tab) :
    (upd_background k b u).id = u.id := by
  unfold upd_background; by_cases h : u.id = k <;> simp [h]

lemma upd_background_preserves_vis (k : Nat) (b : Bool) (u : Tab) :
    (upd_background k b u).isVisible = u.isVisible := by
  unfold upd_background; by_cases h : u.id = k <;> simp [h]

lemma ids_map_update (l : List Tab) (f : Tab → Tab) (hf : ∀ u, (f u).id = u.id) :
    (l.map f).map Tab.id = l.map Tab.id := by
  induction l with
  | nil => rfl
  | cons x xs ih => simp [ih, hf]

lemma map_id_of_mem {α : Type} {l : List α} {f : α → α} (h : ∀ x ∈ l, f x = x) :
    l.map f = l := by
  induction l with
  | nil => rfl
  | cons x xs ih =>
    simp only [List.map_cons, h x (List.mem_cons_self x xs)]
    rw [ih fun x hx => h x (List.mem_cons_of_mem _ hx)]

lemma mem_eraseP_of_pred_false {α : Type} {l : List α} {u : α} {p : α → Bool}
    (hu : u ∈ l) (hp : p u = false) : u ∈ l.eraseP p := by
  induction l with
  | nil => cases hu
  | cons x xs ih =>
    rcases List.mem_cons.mp hu with rfl | hu'
    · rw [List.eraseP_cons, hp]
      exact List.mem_cons_self _ _
    · rw [List.eraseP_cons]
      cases hx : p x with
      | true => simpa using hu'
      | false => simpa using Or.inr (ih hu')

lemma eraseP_id_ne {l : List Tab} {k : Nat} (hnd : (l.map Tab.id).Nodup) :
    ∀ u ∈ l.eraseP (fun w => w.id == k), u.id ≠ k := by
  induction l with
  | nil => simp
  | cons x xs ih =>
    rw [List.map_cons, List.nodup_cons] at hnd
    intro u hu
    rw [List.eraseP_cons] at hu
    by_cases hx : x.id = k
    · simp only [hx, beq_self_eq_true, cond_true] at hu
      intro huk
      apply hnd.1
      rw [hx, ← huk]
      exact List.mem_map_of_mem Tab.id hu
    · simp only [beq_eq_false_iff_ne.mpr hx, cond_false, List.mem_cons] at hu
      rcases hu with rfl | hu'
      · exact hx
      · exact ih hnd.2 u hu'

/-- The registry state `tab_destroy` leaves behind (and in which the close call
is issued), exposed as a record. -/
lemma tab_destroy_fst (s : Server) (t : Tab) :
    (tab_destroy s t).1 =
      { tabs := s.tabs.eraseP (fun u => u.id == t.id),
        active := if s.active = some t.id then none else s.active } := by
  unfold tab_destroy
  by_cases h : s.active = some t.id <;> cases t.view <;> simp [h]

/-- The registry state `tab_activate` produces, exposed as a record. -/
lemma tab_activate_fst (s : Server) (t : Tab) :
    (tab_activate s t).1 =
      { tabs := (match s.active with
          | some a => if a ≠ t.id then s.tabs.map (upd_visible a false) else s.tabs
          | none => s.tabs).map (upd_visible t.id true),
        active := some t.id } := by
  unfold tab_activate
  cases h : s.active with
  | none => simp
  | some a => by_cases ha : a = t.id <;> simp [ha]

lemma inv_mk {tabs : List Tab} {act : Option Nat}
    (h1 : (tabs.map Tab.id).Nodup)
    (h2 : ∀ a, act = some a → a ∈ tabs.map Tab.id)
    (h3 : ∀ t ∈ tabs, t.isVisible = true → act = some t.id)
    (h4 : ∀ a, act = some a → ∃ t ∈ tabs, t.id = a ∧ t.isVisible = true) :
    Inv { tabs := tabs, active := act } :=
  ⟨h1, h2, h3, h4⟩

/-- Every reachable registry state satisfies the invariant. -/
theorem reach_inv {s : Server} (h : Reach s) : Inv s := by
  induction h with
  | init =>
    refine ⟨List.nodup_nil, ?_, ?_, ?_⟩ <;> intro a ha <;> simp_all [Server.ids]
  | @create s id v hR hfresh ih =>
    obtain ⟨hnd, hact, hvis, hwit⟩ := ih
    refine inv_mk ?_ ?_ ?_ ?_
    · rw [List.map_append, List.nodup_append]
      refine ⟨hnd, by simp, ?_⟩
      intro x hx hx1
      simp only [List.map_cons, List.map_nil, List.mem_singleton] at hx1
      exact hfresh (by rw [← hx1]; exact hx)
    · intro a ha
      have ha' : s.active = some a := ha
      rw [List.map_append]
      exact List.mem_append_left _ (hact a ha')
    · intro u hu hvisu
      rcases List.mem_append.mp hu with hu' | hu'
      · exact hvis u hu' hvisu
      · rw [List.mem_singleton] at hu'
        rw [hu'] at hvisu
        cases hvisu
    · intro a ha
      obtain ⟨w, hw, hwid, hwvis⟩ := hwit a ha
      exact ⟨w, List.mem_append_left _ hw, hwid, hwvis⟩
  | @activate s t hR hmem ih =>
    obtain ⟨hnd, hact, hvis, hwit⟩ := ih
    rw [tab_activate_fst]
    cases ha : s.active with
    | none =>
      refine inv_mk ?_ ?_ ?_ ?_
      · rw [ids_map_update _ _ (upd_visible_preserves_id t.id true)]
        exact hnd
      · intro a hae
        injection hae with hae
        subst hae
        rw [ids_map_update _ _ (upd_visible_preserves_id t.id true)]
        exact List.mem_map_of_mem Tab.id hmem
      · intro u hu hvisu
        obtain ⟨w, hw, rfl⟩ := List.mem_map.mp hu
        rw [upd_visible_preserves_id]
        by_cases hwt : w.id = t.id
        · rw [hwt]
        · rw [upd_visible_vis, if_neg hwt] at hvisu
          have := hvis w hw hvisu
          rw [ha] at this
          cases this
      · intro a hae
        injection hae with hae
        subst hae
        refine ⟨upd_visible t.id true t, List.mem_map_of_mem _ hmem,
          upd_visible_preserves_id t.id true t, ?_⟩
        rw [upd_visible_vis, if_pos rfl]
    | some a =>
      by_cases hat : a = t.id
      · subst hat
        dsimp only
        rw [if_neg (by simp)]
        refine inv_mk ?_ ?_ ?_ ?_
        · rw [ids_map_update _ _ (upd_visible_preserves_id t.id true)]
          exact hnd
        · intro b hbe
          injection hbe with hbe
          subst hbe
          rw [ids_map_update _ _ (upd_visible_preserves_id t.id true)]
          exact List.mem_map_of_mem Tab.id hmem
        · intro u hu hvisu
          obtain ⟨w, hw, rfl⟩ := List.mem_map.mp hu
          rw [upd_visible_preserves_id]
          by_cases hwt : w.id = t.id
          · rw [hwt]
          · rw [upd_visible_vis, if_neg hwt] at hvisu
            have := hvis w hw hvisu
            rw [ha] at this
            injection this with this
            exact absurd this.symm hwt
        · intro b hbe
          injection hbe with hbe
          subst hbe
          refine ⟨upd_visible t.id true t, List.mem_map_of_mem _ hmem,
            upd_visible_preserves_id t.id true t, ?_⟩
          rw [upd_visible_vis, if_pos rfl]
      · dsimp only
        rw [if_pos (fun hc => hat hc)]
        refine inv_mk ?_ ?_ ?_ ?_
        · rw [ids_map_update _ _ (upd_visible_preserves_id t.id true),
            ids_map_update _ _ (upd_visible_preserves_id a false)]
          exact hnd
        · intro b hbe
          injection hbe with hbe
          subst hbe
          rw [ids_map_update _ _ (upd_visible_preserves_id t.id true),
            ids_map_update _ _ (upd_visible_preserves_id a false)]
          exact List.mem_map_of_mem Tab.id hmem
        · intro u hu hvisu
          obtain ⟨w1, hw1, rfl⟩ := List.mem_map.mp hu
          obtain ⟨w, hw, rfl⟩ := List.mem_map.mp hw1
          rw [upd_visible_preserves_id, upd_visible_preserves_id]
          by_cases hwt : w.id = t.id
          · rw [hwt]
          · rw [upd_visible_vis, upd_visible_preserves_id, if_neg hwt] at hvisu
            by_cases hwa : w.id = a
            · rw [upd_visible_vis, if_pos hwa] at hvisu
              cases hvisu
            · rw [upd_visible_vis, if_neg hwa] at hvisu
              have := hvis w hw hvisu
              rw [ha] at this
              injection this with this
              exact absurd this.symm hwa
        · intro b hbe
          injection hbe with hbe
          subst hbe
          refine ⟨upd_visible t.id true (upd_visible a false t),
            List.mem_map_of_mem _ (List.mem_map_of_mem _ hmem), ?_, ?_⟩
          · rw [upd_visible_preserves_id, upd_visible_preserves_id]
          · rw [upd_visible_vis, upd_visible_preserves_id, if_pos rfl]
  | @set_background s t b hR hmem ih =>
    obtain ⟨hnd, hact, hvis, hwit⟩ := ih
    refine inv_mk ?_ ?_ ?_ ?_
    · rw [ids_map_update _ _ (upd_background_preserves_id t.id b)]
      exact hnd
    · intro a ha
      have ha' : s.active = some a := ha
      rw [ids_map_update _ _ (upd_background_preserves_id t.id b)]
      exact hact a ha'
    · intro u hu hvisu
      obtain ⟨w, hw, rfl⟩ := List.mem_map.mp hu
      rw [upd_background_preserves_vis] at hvisu
      rw [upd_background_preserves_id]
      exact hvis w hw hvisu
    · intro a ha
      have ha' : s.active = some a := ha
      obtain ⟨w, hw, hwid, hwvis⟩ := hwit a ha'
      refine ⟨upd_background t.id b w, List.mem_map_of_mem _ hw, ?_, ?_⟩
      · rw [upd_background_preserves_id]; exact hwid
      · rw [upd_background_preserves_vis]; exact hwvis
  | @destroy s t hR hmem ih =>
    obtain ⟨hnd, hact, hvis, hwit⟩ := ih
    rw [tab_destroy_fst]
    refine inv_mk ?_ ?_ ?_ ?_
    · exact hnd.sublist ((List.eraseP_sublist _).map Tab.id)
    · intro a ha
      by_cases hcond : s.active = some t.id
      · rw [if_pos hcond] at ha
        cases ha
      · rw [if_neg hcond] at ha
        obtain ⟨w, hw, hwid, hwvis⟩ := hwit a ha
        have hwa : w.id ≠ t.id := by
          intro hcontra
          apply hcond
          rw [ha, ← hwid, hcontra]
        have hmem' : w ∈ s.tabs.eraseP (fun u => u.id == t.id) :=
          mem_eraseP_of_pred_false hw (by simpa using hwa)
        rw [← hwid]
        exact List.mem_map_of_mem Tab.id hmem'
    · intro u hu hvisu
      have humem : u ∈ s.tabs := (List.eraseP_sublist _).subset hu
      have hau := hvis u humem hvisu
      have hune : u.id ≠ t.id := eraseP_id_ne hnd u hu
      have hcond : s.active ≠ some t.id := by
        rw [hau]
        intro hcontra
        injection hcontra with hcontra
        exact hune hcontra
      rw [if_neg hcond]
      exact hau
    · intro a ha
      by_cases hcond : s.active = some t.id
      · rw [if_pos hcond] at ha
        cases ha
      · rw [if_neg hcond] at ha
        obtain ⟨w, hw, hwid, hwvis⟩ := hwit a ha
        have hwa : w.id ≠ t.id := by
          intro hcontra
          apply hcond
          rw [ha, ← hwid, hcontra]
        exact ⟨w, mem_eraseP_of_pred_false hw (by simpa using hwa), hwid, hwvis⟩

/-- The effect list `tab_activate` emits, exposed by case. -/
lemma tab_activate_snd (s : Server) (t : Tab) :
    (tab_activate s t).2 =
      (match s.active with
        | some a =>
          if a ≠ t.id then
            (match (find_by_id s a).bind Tab.view with
             | some v => [Effect.viewActivate v.vid false]
             | none => [])
          else []
        | none => []) ++
      (match t.view with
        | some v => [Effect.viewActivate v.vid true, Effect.viewPosition v.vid]
        | none => []) := by
  unfold tab_activate
  cases h : s.active with
  | none => simp
  | some a => by_cases ha : a = t.id <;> simp [ha]

lemma tab_set_visible_true_self {u : Tab} (h : u.isVisible = true) :
    ({ u with isVisible := true } : Tab) = u := by
  cases u
  simp_all

/-! ### Concrete states used by the witnesses -/

/-- A concrete view. -/
def v7 : View := { vid := 7, title := none, appId := none }

/-- The single tab of `s_act` (visible, active). -/
def tact : Tab := { id := 0, view := some v7, isVisible := true, isBackground := false }

/-- One freshly created tab. -/
def s_one : Server := tab_create { tabs := [], active := none } 0 (some v7)

/-- The state after activating that tab. -/
def s_act : Server :=
  (tab_activate s_one { id := 0, view := some v7, isVisible := false, isBackground := false }).1

lemma reach_s_one : Reach s_one := Reach.create 0 (some v7) Reach.init (by decide)

lemma reach_s_act : Reach s_act := Reach.activate reach_s_one (by decide)

/-- C2. `tab_destroy` removes the tab from `server->tabs` strictly before it
issues the close call on the tab's view: `(tab_destroy s t).1` is the registry
state at the moment `view->impl->close` runs (and the final state), and in it
no lookup — membership, `tab_from_view`, or position indexing — can return the
tab being destroyed.  The last conjunct records that when a view is bound the
close call is the one effect issued, in that already-pruned state. -/
theorem c2_removed_before_view_close (s : Server) (t : Tab) (hnd : s.ids.Nodup) :
    (∀ u ∈ (tab_destroy s t).1.tabs, u ≠ t) ∧
    (∀ w u, tab_from_view (tab_destroy s t).1 w = some u → u ≠ t) ∧
    (∀ i u, (tab_destroy s t).1.tabs.get? i = some u → u ≠ t) ∧
    (∀ v, t.view = some v → (tab_destroy s t).2 = [Effect.viewClose v.vid]) := by
  have hids : ∀ u ∈ (tab_destroy s t).1.tabs, u.id ≠ t.id := by
    rw [tab_destroy_fst]
    exact eraseP_id_ne hnd
  have hne : ∀ u ∈ (tab_destroy s t).1.tabs, u ≠ t := by
    intro u hu hequ
    exact hids u hu (by rw [hequ])
  refine ⟨hne, ?_, ?_, ?_⟩
  · intro w u hfind
    exact hne u (List.mem_of_find?_eq_some hfind)
  · intro i u hget
    exact hne u (List.get?_mem hget)
  · intro v hv
    unfold tab_destroy
    rw [hv]

/-- C2 witness: destroying the active tab of a one-tab registry. -/
theorem c2_witness :
    s_act.ids.Nodup ∧
    (∀ u ∈ (tab_destroy s_act tact).1.tabs, u ≠ tact) ∧
    (∀ v, tact.view = some v → (tab_destroy s_act tact).2 = [Effect.viewClose v.vid]) :=
  ⟨by decide, (c2_removed_before_view_close s_act tact (by decide)).1,
    (c2_removed_before_view_close s_act tact (by decide)).2.2.2⟩

/-- C3. In every reachable registry state the active reference, when set,
points to a tab currently in `server->tabs`; and destroying the active tab
clears `active_tab` to none (no replacement is selected). -/
theorem c3_active_in_tabs_destroy_clears (s : Server) (t : Tab) (h : Reach s) :
    (∀ a, s.active = some a → a ∈ s.ids) ∧
    (s.active = some t.id → (tab_destroy s t).1.active = none) := by
  refine ⟨(reach_inv h).2.1, ?_⟩
  intro ha
  rw [tab_destroy_fst]
  dsimp only
  rw [if_pos ha]

/-- C3 witness: the reachable one-tab active state. -/
theorem c3_witness :
    (∀ a, s_act.active = some a → a ∈ s_act.ids) ∧
    (tab_destroy s_act tact).1.active = none :=
  ⟨(c3_active_in_tabs_destroy_clears s_act tact reach_s_act).1,
    (c3_active_in_tabs_destroy_clears s_act tact reach_s_act).2 (by decide)⟩

/-- C4. In every reachable registry state, at most one tab among the
non-background tabs is visible (in fact at most one tab is visible at all:
visibility implies being the active tab, and tab identities are unique). -/
theorem c4_at_most_one_visible (s : Server) (h : Reach s) :
    ∀ u ∈ s.tabs, ∀ w ∈ s.tabs, u.isBackground = false → w.isBackground = false →
      u.isVisible = true → w.isVisible = true → u = w := by
  obtain ⟨hnd, -, hvis, -⟩ := reach_inv h
  intro u hu w hw _ _ hvu hvw
  have h1 := hvis u hu hvu
  have h2 := hvis w hw hvw
  rw [h1] at h2
  exact List.inj_on_of_nodup_map hnd hu hw (Option.some.inj h2)

/-- C4 witness: instantiated on the reachable one-tab active state. -/
theorem c4_witness : tact.isVisible = true ∧ tact = tact :=
  ⟨by decide,
    c4_at_most_one_visible s_act reach_s_act tact (by decide) tact (by decide)
      (by decide) (by decide) (by decide) (by decide)⟩

/-- C9 counterexample.  The claim says activating the already-active tab makes
no activation call on any View.  On the reachable state `s_act` (one tab,
active, visible, view bound) the code re-issues `view_activate(view, true)`
and `view_position(view)`: the emitted effect list is nonempty. -/
theorem c9_counterexample :
    (tab_activate s_act tact).2 = [Effect.viewActivate 7 true, Effect.viewPosition 7] ∧
    (tab_activate s_act tact).2 ≠ [] := by
  decide

/-- C9 (amended).  Activating the tab that is already active leaves the
registry state unchanged — the deactivation branch requires a *different*
active tab, and re-setting `is_visible`/`active_tab` rewrites values they
already have — but it is not call-free: `view_activate(view, true)` and
`view_position(view)` are re-invoked on the tab's bound view (and no
deactivation call is made on any view). -/
theorem c9_activate_self_state_unchanged (s : Server) (t : Tab) (h : Reach s)
    (_hmem : t ∈ s.tabs) (ha : s.active = some t.id) :
    (tab_activate s t).1 = s ∧
    (∀ v, t.view = some v →
      (tab_activate s t).2 = [Effect.viewActivate v.vid true, Effect.viewPosition v.vid]) ∧
    (t.view = none → (tab_activate s t).2 = []) := by
  obtain ⟨hnd, -, -, hwit⟩ := reach_inv h
  refine ⟨?_, ?_, ?_⟩
  · rw [tab_activate_fst, ha]
    dsimp only
    rw [if_neg (by simp)]
    have hmap : s.tabs.map (upd_visible t.id true) = s.tabs := by
      apply map_id_of_mem
      intro u hu
      by_cases hut : u.id = t.id
      · obtain ⟨w, hw, hwid, hwvis⟩ := hwit t.id ha
        have huw : u = w := List.inj_on_of_nodup_map hnd hu hw (by rw [hut, hwid])
        have huv : u.isVisible = true := by rw [huw]; exact hwvis
        unfold upd_visible
        rw [if_pos hut]
        exact tab_set_visible_true_self huv
      · exact upd_visible_of_ne hut
    rw [hmap, ← ha]
  · intro v hv
    rw [tab_activate_snd, ha, hv]
    dsimp only
    rw [if_neg (by simp), List.nil_append]
  · intro hv
    rw [tab_activate_snd, ha, hv]
    dsimp only
    rw [if_neg (by simp), List.nil_append]

/-- C9 witness: the amended statement instantiated on `s_act`. -/
theorem c9_witness :
    (tab_activate s_act tact).1 = s_act ∧
    (tab_activate s_act tact).2 = [Effect.viewActivate v7.vid true, Effect.viewPosition v7.vid] :=
  ⟨(c9_activate_self_state_unchanged s_act tact reach_s_act (by decide) (by decide)).1,
    (c9_activate_self_state_unchanged s_act tact reach_s_act (by decide) (by decide)).2.1
      v7 (by decide)⟩

/-! ### Control protocol server (src/control.c) -/

/-- The bytes of a string literal. -/
def str (s : String) : Chars := s.data

/-- `CONTROL_BUFFER_SIZE` from src/control.c:27. -/
def CONTROL_BUFFER_SIZE : Nat := 4096

/-- One `snprintf(response + offset, CONTROL_BUFFER_SIZE - offset, ...)` step of
`handle_list_tabs`: at most the remaining capacity minus one byte (the NUL
terminator) is written, and the *untruncated* length is added to `offset` (the
snprintf return value).  When `offset` already exceeds the buffer the C call
would address past the buffer end with an underflowed size; the model writes
nothing in that region and no theorem depends on it. -/
def snprintf_append (buf : Chars) (offset : Nat) (s : Chars) : Chars × Nat :=
  let cap := CONTROL_BUFFER_SIZE - offset
  let written := if cap = 0 then 0 else min s.length (cap - 1)
  (buf ++ s.take written, offset + s.length)

/-- C `isspace` in the default locale, as `strtol` skips it. -/
def isspaceC (c : Char) : Bool :=
  c == ' ' || c == '\t' || c == '\n' || c == '\x0b' || c == '\x0c' || c == '\r'

/-- Value of a nonempty string of decimal digits. -/
def digitsVal (ds : Chars) : Nat :=
  ds.foldl (fun n c => n * 10 + (c.toNat - '0'.toNat)) 0

/-- `strtol(arg, &endptr, 10)`: skip whitespace, read an optional sign and a
maximal run of decimal digits; if no digits were converted the result is 0 and
`endptr` is the original `arg` (so the returned suffix is all of `arg`).
Returns the value and the suffix starting at `endptr`.  The clamping of
out-of-range values to LONG_MIN/LONG_MAX is not modelled: the handlers only
compare the value against 0 and the tab count, and a clamped LONG_MAX compares
the same way as the exact value. -/
def strtol10 (cs : Chars) : Int × Chars :=
  let afterSpace := cs.dropWhile isspaceC
  let signNeg : Bool :=
    match afterSpace with
    | '-' :: _ => true
    | _ => false
  let afterSign : Chars :=
    match afterSpace with
    | '-' :: rest => rest
    | '+' :: rest => rest
    | _ => afterSpace
  let digits := afterSign.takeWhile Char.isDigit
  if digits = [] then (0, cs)
  else
    ((if signNeg then -(digitsVal digits : Int) else (digitsVal digits : Int)),
      afterSign.dropWhile Char.isDigit)

/-- One detail line of the list-tabs response, `"%d: [%s] %s\n"`
(src/control.c:81-103): the app id falls back to `"(unknown)"` and the title to
`"(unnamed)"` when the view is unbound or returns NULL. -/
def tab_line (index : Nat) (t : Tab) : Chars :=
  let title :=
    match t.view with
    | some v =>
      match v.title with
      | some s => s
      | none => str "(unnamed)"
    | none => str "(unnamed)"
  let appId :=
    match t.view with
    | some v =>
      match v.appId with
      | some s => s
      | none => str "(unknown)"
    | none => str "(unknown)"
  (Nat.repr index).data ++ str ": [" ++ appId ++ str "] " ++ title ++ ['\n']

/-- The successive `snprintf` arguments of `handle_list_tabs`
(src/control.c:69-106): the `"OK %d\n"` header, then one line per tab in list
order. -/
def list_tabs_chunks (s : Server) : List Chars :=
  (str "OK " ++ (Nat.repr (tab_count s)).data ++ ['\n']) ::
    (s.tabs.enum.map (fun p => tab_line p.1 p.2))

/-- `handle_list_tabs` (src/control.c:69-106): accumulate the chunks into the
fixed 4096-byte `response` buffer through `snprintf`, then send
`strlen(response)` bytes — i.e. exactly the characters actually written. -/
def handle_list_tabs (s : Server) : Chars :=
  ((list_tabs_chunks s).foldl (fun acc c => snprintf_append acc.1 acc.2 c) ([], 0)).1

/-- The list-tabs response as the spec words it: a first line `OK <n>` with `n`
the number of tabs, followed by exactly `n` detail lines, one per tab in list
order, with no truncation.  Written from the spec for comparison with
`handle_list_tabs`. -/
def spec_list_tabs_response (s : Server) : Chars :=
  (list_tabs_chunks s).flatten

/-- `handle_focus_tab` (src/control.c:108-137): empty argument → missing-index
error; `strtol` leftover or negative value → invalid-index error; otherwise the
`index == tab_num` scan either activates the tab at that list position or
falls through to the out-of-range error. -/
def handle_focus_tab (s : Server) (arg : Chars) : Server × List Effect × Chars :=
  if arg.length = 0 then (s, [], str "ERROR Missing tab index\n")
  else
    let p := strtol10 arg
    if p.2 ≠ [] ∨ p.1 < 0 then (s, [], str "ERROR Invalid tab index\n")
    else
      match s.tabs.get? p.1.toNat with
      | some t =>
        let r := tab_activate s t
        (r.1, r.2, str "OK\n")
      | none => (s, [], str "ERROR Tab index out of range\n")

/-- `handle_close_tab` (src/control.c:139-176): same argument checks as
`handle_focus_tab`; at the matching index, `--force` invokes only the view's
close path (`tab->view->impl->close`, when a view is bound) and leaves the
registry untouched, while a non-forced close runs `tab_destroy`. -/
def handle_close_tab (s : Server) (arg : Chars) (force : Bool) :
    Server × List Effect × Chars :=
  if arg.length = 0 then (s, [], str "ERROR Missing tab index\n")
  else
    let p := strtol10 arg
    if p.2 ≠ [] ∨ p.1 < 0 then (s, [], str "ERROR Invalid tab index\n")
    else
      match s.tabs.get? p.1.toNat with
      | some t =>
        if force then
          (s,
            (match t.view with
             | some v => [Effect.viewClose v.vid]
             | none => []),
            str "OK\n")
        else
          let r := tab_destroy s t
          (r.1, r.2, str "OK\n")
      | none => (s, [], str "ERROR Tab index out of range\n")

/-- Token split on `' '` as the `strtok_r` loops of `handle_new_tab` produce:
maximal nonempty tokens.  Fuel-indexed for structural recursion; each round
consumes at least one character. -/
def tokensAux : Nat → Chars → List Chars
  | 0, _ => []
  | fuel + 1, cs =>
    let rest := cs.dropWhile (fun c => c = ' ')
    match rest with
    | [] => []
    | _ :: _ =>
      rest.takeWhile (fun c => c ≠ ' ') ::
        tokensAux fuel (rest.dropWhile (fun c => c ≠ ' '))

def tokens (cs : Chars) : List Chars := tokensAux (cs.length + 1) cs

/-- `handle_new_tab` (src/control.c:186-306) at registry level: empty argument
→ missing-command error, an all-spaces argument → empty-command error,
otherwise fork/exec of the argv (fork modelled as succeeding; the allocation
failure branches and the Firefox `--new-instance` argv rewrite in the child
are not modelled). -/
def handle_new_tab (s : Server) (cmd : Chars) : Server × List Effect × Chars :=
  if cmd.length = 0 then (s, [], str "ERROR Missing command\n")
  else
    let argv := tokens cmd
    if argv.length = 0 then (s, [], str "ERROR Empty command\n")
    else (s, [Effect.spawn argv], str "OK\n")

/-- `process_command` (src/control.c:308-329).  Note the C quirks preserved
here: the `new-tab` guard is `strncmp(command, "new-tab -- ", 10)`, which
compares only the first 10 bytes — `"new-tab --"` — and then passes
`command + 10`, so the handler argument keeps the separating space; the
`--force` detection compares 8 bytes at `command + 10`. -/
def process_command (s : Server) (cmd : Chars) : Server × List Effect × Chars :=
  if cmd = str "list-tabs" then (s, [], handle_list_tabs s)
  else if cmd.take 10 = str "focus-tab " then handle_focus_tab s (cmd.drop 10)
  else if cmd.take 10 = str "close-tab " then
    if (cmd.drop 10).take 8 = str "--force " then handle_close_tab s (cmd.drop 18) true
    else handle_close_tab s (cmd.drop 10) false
  else if cmd.take 10 = str "new-tab --" then handle_new_tab s (cmd.drop 10)
  else if cmd = str "show-launcher" then (s, [Effect.showLauncher], str "OK\n")
  else (s, [], str "ERROR Unknown command\n")

/-- Per-connection write-side state: whether the server has already shut down
its write half, and the messages actually delivered to the client. -/
structure ConnState where
  wrShutdown : Bool
  sent : List Chars
deriving DecidableEq, Repr

/-- `control_client_send` (src/control.c:55-67): `send(fd, msg, MSG_NOSIGNAL)`
followed by `shutdown(fd, SHUT_WR)`.  A send on a socket whose write side was
already shut down fails with EPIPE (no signal, thanks to MSG_NOSIGNAL); the C
code logs the error and returns, so nothing is delivered and the state does
not change. -/
def control_client_send (conn : ConnState) (msg : Chars) : ConnState :=
  if conn.wrShutdown then conn
  else { wrShutdown := true, sent := conn.sent ++ [msg] }

/-- `memchr(buffer, '\n', len)` plus the split around it: the line before the
first newline and the remainder after it, or `none` when the buffer holds no
newline. -/
def splitFirstLine (buf : Chars) : Option (Chars × Chars) :=
  match buf.dropWhile (fun c => c ≠ '\n') with
  | _ :: rest => some (buf.takeWhile (fun c => c ≠ '\n'), rest)
  | [] => none

/-- The line loop of `handle_client_data` (src/control.c:367-379): while the
buffer holds a newline, dispatch the line before it to `process_command`, send
the response, and shift the remainder to the front of the buffer.
`dispatched` records the processed lines in order; the accumulated effects are
threaded through.  Fuel one larger than the buffer length always suffices
because every round consumes at least the newline byte. -/
def lineLoop : Nat → Server → ConnState → Chars → List Effect → List Chars →
    Server × ConnState × Chars × List Effect × List Chars
  | 0, s, conn, buf, effs, dispatched => (s, conn, buf, effs, dispatched)
  | fuel + 1, s, conn, buf, effs, dispatched =>
    match splitFirstLine buf with
    | none => (s, conn, buf, effs, dispatched)
    | some (line, rest) =>
      lineLoop fuel (process_command s line).1
        (control_client_send conn (process_command s line).2.2) rest
        (effs ++ (process_command s line).2.1) (dispatched ++ [line])

/-- Result of one `handle_client_data` invocation. -/
structure ClientResult where
  server : Server
  conn : ConnState
  buffer : Chars
  effects : List Effect
  dispatched : List Chars
  alive : Bool
deriving DecidableEq, Repr

/-- `handle_client_data` (src/control.c:344-388) after a successful `read`
appended `input` to the client's buffer: run the line loop over the combined
buffer; the client is destroyed afterwards iff the leftover buffer fills the
whole `CONTROL_BUFFER_SIZE` without containing a newline. -/
def handle_client_data (s : Server) (conn : ConnState) (buffer input : Chars) :
    ClientResult :=
  let buf := buffer ++ input
  let r := lineLoop (buf.length + 1) s conn buf [] []
  { server := r.1, conn := r.2.1, buffer := r.2.2.1, effects := r.2.2.2.1,
    dispatched := r.2.2.2.2,
    alive := decide (r.2.2.1.length < CONTROL_BUFFER_SIZE) }

namespace Waymuxctl

/-- One CLI-client run's interaction with the socket, as `send_command`
observes it: whether `connect` succeeded, the successive successful `recv`
chunks (each nonempty), and whether the loop ended with a read error instead
of EOF. -/
structure Conn where
  connectOk : Bool
  chunks : List Chars
  recvErr : Bool
deriving DecidableEq, Repr

/-- The `recv` loop of `send_command` (src/waymuxctl.c:122-136): while the
first line has not been seen, look for the first newline in the current chunk
and print everything after it; once seen, print chunks whole.  A first chunk
without a newline prints nothing and leaves `first_line` set. -/
def recv_loop : List Chars → Bool → Chars → Chars
  | [], _, out => out
  | c :: rest, firstLine, out =>
    if firstLine then
      match splitFirstLine c with
      | some p => recv_loop rest false (out ++ p.2)
      | none => recv_loop rest true out
    else recv_loop rest false (out ++ c)

/-- `send_command` (src/waymuxctl.c:89-146): connection failure → -1; then the
recv loop runs (what it prints reaches stdout either way), and the return is
-1 exactly when the loop ended on a read error.  Sending the command line is
modelled as succeeding.  Returns the C return value and the bytes printed. -/
def send_command (conn : Conn) : Int × Chars :=
  if conn.connectOk = false then (-1, [])
  else
    let out := recv_loop conn.chunks true []
    if conn.recvErr then (-1, out) else (0, out)

/-- The process exit status of a command-sending `main` invocation
(src/waymuxctl.c:316-389): every such branch returns
`send_command(cmd) == 0 ? 0 : 1`. -/
def main_status (conn : Conn) : Nat :=
  if (send_command conn).1 = 0 then 0 else 1

end Waymuxctl

/-- The scenario server of the spec: tabs `("app1","Title1")`, `("app2","Title2")`. -/
def sTwo : Server :=
  { tabs :=
      [{ id := 0, view := some { vid := 1, title := some (str "Title1"), appId := some (str "app1") },
         isVisible := false, isBackground := false },
       { id := 1, view := some { vid := 2, title := some (str "Title2"), appId := some (str "app2") },
         isVisible := false, isBackground := false }],
    active := none }

/-- The long-title tab of the C5 counterexample. -/
def tLong : Tab :=
  { id := 0,
    view := some { vid := 1, title := some (List.replicate 5000 'a'), appId := some (str "app1") },
    isVisible := false, isBackground := false }

/-- A registry whose single detail line overflows the 4096-byte response buffer. -/
def sLong : Server := { tabs := [tLong], active := none }

/-- A fresh control connection. -/
def connFresh : ConnState := { wrShutdown := false, sent := [] }

/-! ### C5: the list-tabs response -/

lemma snprintf_fold_exact (chunks : List Chars) (buf : Chars) (off : Nat)
    (hoff : off = buf.length)
    (hfit : off + (chunks.map List.length).sum + 1 ≤ CONTROL_BUFFER_SIZE) :
    chunks.foldl (fun acc c => snprintf_append acc.1 acc.2 c) (buf, off) =
      (buf ++ chunks.flatten, off + (chunks.map List.length).sum) := by
  induction chunks generalizing buf off with
  | nil => simp
  | cons c cs ih =>
    rw [List.foldl_cons]
    have hsum : (List.map List.length (c :: cs)).sum
        = c.length + (List.map List.length cs).sum := by simp
    rw [hsum] at hfit
    have hcap : ¬(CONTROL_BUFFER_SIZE - off = 0) := by
      simp only [CONTROL_BUFFER_SIZE] at hfit ⊢
      omega
    have hmin : min c.length (CONTROL_BUFFER_SIZE - off - 1) = c.length := by
      simp only [CONTROL_BUFFER_SIZE] at hfit ⊢
      exact min_eq_left (by omega)
    have hstep : snprintf_append buf off c = (buf ++ c, off + c.length) := by
      simp only [snprintf_append]
      rw [if_neg hcap, hmin, List.take_length]
    rw [hstep, ih (buf ++ c) (off + c.length) (by simp [hoff]) (by omega)]
    rw [hsum]
    simp [List.append_assoc, Nat.add_assoc]

/-- C5 (amended).  Whenever the full response — `OK <n>` followed by exactly
`n` detail lines — fits the 4096-byte response buffer together with its NUL
terminator, `handle_list_tabs` produces it verbatim: the declared count equals
the number of tabs and of detail lines.  (Without the bound the buffer
truncates the output; see the counterexample.) -/
theorem c5_list_tabs_exact_within_buffer (s : Server)
    (hfit : (spec_list_tabs_response s).length + 1 ≤ CONTROL_BUFFER_SIZE) :
    handle_list_tabs s = spec_list_tabs_response s := by
  unfold spec_list_tabs_response at hfit ⊢
  unfold handle_list_tabs
  have hlen : (list_tabs_chunks s).flatten.length
      = ((list_tabs_chunks s).map List.length).sum := List.length_flatten _
  rw [hlen] at hfit
  rw [snprintf_fold_exact (list_tabs_chunks s) [] 0 rfl (by omega)]
  simp

/-- C5 witness: the spec's two-tab scenario, whose response fits the buffer
and equals the literal the spec displays. -/
theorem c5_witness :
    (spec_list_tabs_response sTwo).length + 1 ≤ CONTROL_BUFFER_SIZE ∧
    handle_list_tabs sTwo = str "OK 2\n0: [app1] Title1\n1: [app2] Title2\n" := by
  refine ⟨by decide, ?_⟩
  rw [c5_list_tabs_exact_within_buffer sTwo (by decide)]
  decide

/-- C5 counterexample.  The claim quantifies over *every* registry, but the
response buffer is 4096 bytes: a single tab whose title is 5000 characters
makes `handle_list_tabs` truncate the detail line (the response is 4095 bytes
and does not contain the full line or its newline), so the response is not
`OK 1` followed by exactly one detail line. -/
theorem c5_counterexample : handle_list_tabs sLong ≠ spec_list_tabs_response sLong := by
  have hl : tab_line 0 tLong = str "0: [app1] " ++ (List.replicate 5000 'a' ++ ['\n']) := rfl
  have hlinelen : (tab_line 0 tLong).length = 5011 := by
    rw [hl, List.length_append, List.length_append, List.length_replicate]
    decide
  have hchunks : list_tabs_chunks sLong = [str "OK 1\n", tab_line 0 tLong] := rfl
  have hwritten : (if CONTROL_BUFFER_SIZE - 5 = 0 then 0
      else min (tab_line 0 tLong).length (CONTROL_BUFFER_SIZE - 5 - 1)) = 4090 := by
    rw [hlinelen]
    decide
  have hhandle : handle_list_tabs sLong = str "OK 1\n" ++ (tab_line 0 tLong).take 4090 := by
    unfold handle_list_tabs
    rw [hchunks, List.foldl_cons, List.foldl_cons, List.foldl_nil]
    rw [show snprintf_append [] 0 (str "OK 1\n") = (str "OK 1\n", 5) from by decide]
    simp only [snprintf_append]
    rw [hwritten]
  have hhlen : (handle_list_tabs sLong).length = 4095 := by
    rw [hhandle, List.length_append, List.length_take, hlinelen]
    decide
  have hslen : (spec_list_tabs_response sLong).length = 5016 := by
    unfold spec_list_tabs_response
    rw [hchunks]
    simp only [List.flatten_cons, List.flatten_nil, List.append_nil]
    rw [List.length_append, hlinelen]
    decide
  intro heq
  have hlen2 := congrArg List.length heq
  rw [hhlen, hslen] at hlen2
  exact absurd hlen2 (by decide)

/-! ### C6: index-argument error handling -/

/-- C6.  For both `focus-tab` and `close-tab` (either force mode): an argument
the `strtol` check rejects — leftover characters after the digits (non-numeric)
or a negative value — yields exactly `ERROR Invalid tab index`, and a parsed
index at or past the tab count yields exactly `ERROR Tab index out of range`;
in every such case the returned registry is the input registry unchanged
(tabs list and active reference) and no collaborator call is made. -/
theorem c6_index_errors_leave_registry_unchanged (s : Server) (a : Chars) (b : Bool) :
    (a ≠ [] → ((strtol10 a).2 ≠ [] ∨ (strtol10 a).1 < 0) →
      handle_focus_tab s a = (s, [], str "ERROR Invalid tab index\n") ∧
      handle_close_tab s a b = (s, [], str "ERROR Invalid tab index\n")) ∧
    (∀ n : Nat, a ≠ [] → strtol10 a = ((n : Int), []) → s.tabs.length ≤ n →
      handle_focus_tab s a = (s, [], str "ERROR Tab index out of range\n") ∧
      handle_close_tab s a b = (s, [], str "ERROR Tab index out of range\n")) := by
  constructor
  · intro hne hinv
    have hlen : ¬(a.length = 0) := by simpa using hne
    constructor
    · unfold handle_focus_tab
      rw [if_neg hlen, if_pos hinv]
    · unfold handle_close_tab
      rw [if_neg hlen, if_pos hinv]
  · intro n hne hp hrange
    have hlen : ¬(a.length = 0) := by simpa using hne
    have hget : s.tabs.get? n = none := List.get?_eq_none.mpr hrange
    constructor
    · unfold handle_focus_tab
      rw [if_neg hlen, hp]
      dsimp only
      rw [if_neg (by simp), Int.toNat_ofNat, hget]
    · unfold handle_close_tab
      rw [if_neg hlen, hp]
      dsimp only
      rw [if_neg (by simp), Int.toNat_ofNat, hget]

/-- C6 witness: the spec's concrete cases on the two-tab server — `abc`
(non-numeric) and `-1` (negative) are invalid, index `5` with 2 tabs is out of
range. -/
theorem c6_witness :
    handle_focus_tab sTwo (str "abc") = (sTwo, [], str "ERROR Invalid tab index\n") ∧
    handle_focus_tab sTwo (str "-1") = (sTwo, [], str "ERROR Invalid tab index\n") ∧
    handle_close_tab sTwo (str "5") false = (sTwo, [], str "ERROR Tab index out of range\n") :=
  ⟨((c6_index_errors_leave_registry_unchanged sTwo (str "abc") false).1
      (by decide) (by decide)).1,
   ((c6_index_errors_leave_registry_unchanged sTwo (str "-1") false).1
      (by decide) (by decide)).1,
   ((c6_index_errors_leave_registry_unchanged sTwo (str "5") false).2 5
      (by decide) (by decide) (by decide)).2⟩

/-! ### C10: close-tab --force leaves the registry untouched -/

lemma handle_close_tab_force_ok (s : Server) (a : Chars) (n : Nat) (t : Tab) (v : View)
    (hne : a ≠ []) (hp : strtol10 a = ((n : Int), [])) (hget : s.tabs.get? n = some t)
    (hv : t.view = some v) :
    handle_close_tab s a true = (s, [Effect.viewClose v.vid], str "OK\n") := by
  have hlen : ¬(a.length = 0) := by simpa using hne
  unfold handle_close_tab
  rw [if_neg hlen, hp]
  dsimp only
  rw [if_neg (by simp), Int.toNat_ofNat, hget]
  dsimp only
  rw [if_pos rfl, hv]

/-- C10.  Processing `close-tab --force <i>` for an in-range index whose tab
has a bound view dispatches to the force branch of `handle_close_tab`, which
only invokes the view's close path: the returned registry is the input
registry itself — same tabs list, same order and count, same active reference
— and the sole effect is the `view->impl->close` call.  (Removal of the tab
happens only later through the view's asynchronous unmap notification.) -/
theorem c10_close_tab_force_registry_unchanged (s : Server) (a : Chars) (n : Nat)
    (t : Tab) (v : View)
    (hne : a ≠ []) (hp : strtol10 a = ((n : Int), [])) (hget : s.tabs.get? n = some t)
    (hv : t.view = some v) :
    process_command s (str "close-tab --force " ++ a)
      = (s, [Effect.viewClose v.vid], str "OK\n") := by
  have h18 : (str "close-tab --force ").length = 18 := by decide
  have hnl : (str "close-tab --force " ++ a) ≠ str "list-tabs" := by
    intro h
    have hlen := congrArg List.length h
    rw [List.length_append, h18, show (str "list-tabs").length = 9 from by decide] at hlen
    omega
  have htake : (str "close-tab --force " ++ a).take 10 = str "close-tab " := by
    rw [List.take_append_eq_append_take,
      show (str "close-tab --force ").take 10 = str "close-tab " from by decide,
      show 10 - (str "close-tab --force ").length = 0 from by decide,
      List.take_zero, List.append_nil]
  have hdrop : (str "close-tab --force " ++ a).drop 10 = str "--force " ++ a := by
    rw [List.drop_append_eq_append_drop,
      show (str "close-tab --force ").drop 10 = str "--force " from by decide,
      show 10 - (str "close-tab --force ").length = 0 from by decide, List.drop_zero]
  have htake8 : (str "--force " ++ a).take 8 = str "--force " := by
    rw [List.take_append_eq_append_take,
      show (str "--force ").take 8 = str "--force " from by decide,
      show 8 - (str "--force ").length = 0 from by decide,
      List.take_zero, List.append_nil]
  have hdrop18 : (str "close-tab --force " ++ a).drop 18 = a := by
    rw [List.drop_append_eq_append_drop,
      show (str "close-tab --force ").drop 18 = [] from by decide,
      show 18 - (str "close-tab --force ").length = 0 from by decide,
      List.drop_zero, List.nil_append]
  unfold process_command
  rw [if_neg hnl, htake]
  rw [if_neg (by decide), if_pos rfl, hdrop, htake8]
  rw [if_pos rfl, hdrop18]
  exact handle_close_tab_force_ok s a n t v hne hp hget hv

/-- C10 witness: `close-tab --force 0` on the two-tab server. -/
theorem c10_witness :
    process_command sTwo (str "close-tab --force " ++ str "0")
      = (sTwo, [Effect.viewClose 1], str "OK\n") :=
  c10_close_tab_force_registry_unchanged sTwo (str "0") 0
    { id := 0, view := some { vid := 1, title := some (str "Title1"), appId := some (str "app1") },
      isVisible := false, isBackground := false }
    { vid := 1, title := some (str "Title1"), appId := some (str "app1") }
    (by decide) (by decide) (by decide) (by decide)

/-! ### C7: pipelined command lines -/

lemma dropWhile_until_newline (l r : Chars) (h : ∀ c ∈ l, c ≠ '\n') :
    (l ++ '\n' :: r).dropWhile (fun c => c ≠ '\n') = '\n' :: r := by
  induction l with
  | nil => simp [List.dropWhile_cons]
  | cons x xs ih =>
    rw [List.cons_append, List.dropWhile_cons,
      if_pos (decide_eq_true (h x (List.mem_cons_self x xs)))]
    exact ih fun c hc => h c (List.mem_cons_of_mem _ hc)

lemma takeWhile_until_newline (l r : Chars) (h : ∀ c ∈ l, c ≠ '\n') :
    (l ++ '\n' :: r).takeWhile (fun c => c ≠ '\n') = l := by
  induction l with
  | nil => simp [List.takeWhile_cons]
  | cons x xs ih =>
    rw [List.cons_append, List.takeWhile_cons,
      if_pos (decide_eq_true (h x (List.mem_cons_self x xs)))]
    rw [ih fun c hc => h c (List.mem_cons_of_mem _ hc)]

lemma splitFirstLine_of_line (l r : Chars) (h : ∀ c ∈ l, c ≠ '\n') :
    splitFirstLine (l ++ '\n' :: r) = some (l, r) := by
  unfold splitFirstLine
  rw [dropWhile_until_newline l r h]
  dsimp only
  rw [takeWhile_until_newline l r h]

lemma lineLoop_step (fuel : Nat) (s : Server) (conn : ConnState) (buf : Chars)
    (effs : List Effect) (d : List Chars) (line rest : Chars)
    (hsplit : splitFirstLine buf = some (line, rest)) :
    lineLoop (fuel + 1) s conn buf effs d =
      lineLoop fuel (process_command s line).1
        (control_client_send conn (process_command s line).2.2) rest
        (effs ++ (process_command s line).2.1) (d ++ [line]) := by
  rw [lineLoop, hsplit]

lemma lineLoop_stop (fuel : Nat) (s : Server) (conn : ConnState) (buf : Chars)
    (effs : List Effect) (d : List Chars)
    (hsplit : splitFirstLine buf = none) :
    lineLoop fuel s conn buf effs d = (s, conn, buf, effs, d) := by
  cases fuel with
  | zero => rw [lineLoop]
  | succ k => rw [lineLoop, hsplit]

/-- C7 counterexample.  A single read delivering
`"focus-tab 0\nlist-tabs\n"` on a fresh connection dispatches both commands,
in buffer order — but the client receives only ONE response, not two: the
first `control_client_send` half-closes the write side (`shutdown(SHUT_WR)`),
so the second `send` fails with EPIPE and `OK\n` (the focus-tab reply) is the
only message delivered. -/
theorem c7_counterexample :
    (handle_client_data sTwo connFresh [] (str "focus-tab 0\nlist-tabs\n")).dispatched
      = [str "focus-tab 0", str "list-tabs"] ∧
    (handle_client_data sTwo connFresh [] (str "focus-tab 0\nlist-tabs\n")).conn.sent
      = [str "OK\n"] ∧
    (handle_client_data sTwo connFresh [] (str "focus-tab 0\nlist-tabs\n")).conn.sent.length
      ≠ 2 := by
  decide

/-- C7 (amended).  Two pipelined newline-terminated lines arriving in one read
on a fresh connection are both dispatched to `process_command`, in the order
of their terminating newlines, and a response send is attempted for each in
that order; but the server half-closes its write side after the first
response, so only the first command's response is actually delivered to the
client. -/
theorem c7_pipelined_dispatch_order (s : Server) (l r : Chars)
    (h1 : ∀ c ∈ l, c ≠ '\n') (h2 : ∀ c ∈ r, c ≠ '\n') :
    (handle_client_data s connFresh [] (l ++ '\n' :: (r ++ ['\n']))).dispatched = [l, r] ∧
    (handle_client_data s connFresh [] (l ++ '\n' :: (r ++ ['\n']))).conn.sent
      = [(process_command s l).2.2] ∧
    (handle_client_data s connFresh [] (l ++ '\n' :: (r ++ ['\n']))).server
      = (process_command (process_command s l).1 r).1 := by
  have hconn1 : control_client_send connFresh (process_command s l).2.2
      = { wrShutdown := true, sent := [(process_command s l).2.2] } := by
    simp [control_client_send, connFresh]
  have hconn2 :
      control_client_send { wrShutdown := true, sent := [(process_command s l).2.2] }
        (process_command (process_command s l).1 r).2.2
      = { wrShutdown := true, sent := [(process_command s l).2.2] } := by
    simp [control_client_send]
  have hfuel : (l ++ '\n' :: (r ++ ['\n'])).length + 1
      = ((l.length + (r.length + 1)) + 1) + 1 := by
    simp only [List.length_append, List.length_cons, List.length_nil]
    omega
  have hrun : lineLoop ((l ++ '\n' :: (r ++ ['\n'])).length + 1) s connFresh
      (l ++ '\n' :: (r ++ ['\n'])) [] [] =
      ((process_command (process_command s l).1 r).1,
       { wrShutdown := true, sent := [(process_command s l).2.2] },
       [],
       (process_command s l).2.1 ++ (process_command (process_command s l).1 r).2.1,
       [l, r]) := by
    rw [hfuel]
    rw [lineLoop_step _ _ _ _ _ _ _ _ (splitFirstLine_of_line l (r ++ ['\n']) h1)]
    rw [lineLoop_step _ _ _ _ _ _ _ _ (splitFirstLine_of_line r [] h2)]
    rw [lineLoop_stop _ _ _ _ _ _ (show splitFirstLine [] = none from rfl)]
    rw [hconn1, hconn2]
    simp
  unfold handle_client_data
  dsimp only
  rw [List.nil_append, hrun]
  exact ⟨rfl, rfl, rfl⟩

/-- C7 witness: the amended statement on the spec's scenario input. -/
theorem c7_witness :
    (handle_client_data sTwo connFresh []
        (str "focus-tab 0" ++ '\n' :: (str "list-tabs" ++ ['\n']))).dispatched
      = [str "focus-tab 0", str "list-tabs"] ∧
    (handle_client_data sTwo connFresh []
        (str "focus-tab 0" ++ '\n' :: (str "list-tabs" ++ ['\n']))).conn.sent
      = [(process_command sTwo (str "focus-tab 0")).2.2] :=
  ⟨(c7_pipelined_dispatch_order sTwo (str "focus-tab 0") (str "list-tabs")
      (by decide) (by decide)).1,
   (c7_pipelined_dispatch_order sTwo (str "focus-tab 0") (str "list-tabs")
      (by decide) (by decide)).2.1⟩

/-! ### C8: CLI client exit status -/

/-- C8 counterexample.  The claim says the client exits 1 when the server's
response is an `ERROR` response; but `send_command` never inspects the status
line — it only skips it — so a run whose connection and reads all succeed
exits 0 even though the response is `ERROR Unknown command`. -/
theorem c8_counterexample :
    Waymuxctl.main_status
      { connectOk := true, chunks := [str "ERROR Unknown command\n"], recvErr := false } = 0 ∧
    (str "ERROR Unknown command\n").take 5 = str "ERROR" := by
  decide

/-- C8 (amended).  The client's exit status reflects only I/O success, not the
response's OK/ERROR status line: it exits 0 whenever the connection and the
read loop complete without error — including on an `ERROR` response — and
exits 1 exactly on connection failure or a read error.  What it prints to
stdout is the response body after the first newline of the (first chunk of
the) response, i.e. without the leading status line. -/
theorem c8_exit_reflects_io_only (c : Waymuxctl.Conn) (l r : Chars)
    (hok : c.connectOk = true) (herr : c.recvErr = false) :
    Waymuxctl.main_status c = 0 ∧
    (c.chunks = [l ++ '\n' :: r] → (∀ x ∈ l, x ≠ '\n') →
      (Waymuxctl.send_command c).2 = r) ∧
    (∀ d : Waymuxctl.Conn, d.connectOk = false → Waymuxctl.main_status d = 1) ∧
    (∀ d : Waymuxctl.Conn, d.recvErr = true → Waymuxctl.main_status d = 1) := by
  refine ⟨?_, ?_, ?_, ?_⟩
  · unfold Waymuxctl.main_status Waymuxctl.send_command
    simp [hok, herr]
  · intro hchunks hnl
    unfold Waymuxctl.send_command
    rw [hok]
    rw [if_neg (show ¬(true = false) from by decide)]
    rw [hchunks]
    rw [Waymuxctl.recv_loop]
    rw [if_pos (show (true = true) from rfl), splitFirstLine_of_line l r hnl]
    dsimp only
    rw [Waymuxctl.recv_loop, List.nil_append]
    by_cases hre : c.recvErr = true
    · rw [if_pos hre]
    · rw [if_neg hre]
  · intro d hd
    unfold Waymuxctl.main_status Waymuxctl.send_command
    simp [hd]
  · intro d hd
    unfold Waymuxctl.main_status Waymuxctl.send_command
    by_cases hdc : d.connectOk = false
    · simp [hdc]
    · simp [hd, hdc]

/-- The concrete CLI run of the C8 witness: a successful `OK` exchange whose
single chunk is the status line plus one body line. -/
def conn8 : Waymuxctl.Conn :=
  { connectOk := true, chunks := [str "OK 1" ++ '\n' :: str "0: [app1] Title1\n"],
    recvErr := false }

/-- C8 witness: the amended statement on a successful OK exchange. -/
theorem c8_witness :
    Waymuxctl.main_status conn8 = 0 ∧
    (Waymuxctl.send_command conn8).2 = str "0: [app1] Title1\n" :=
  ⟨(c8_exit_reflects_io_only conn8 (str "OK 1") (str "0: [app1] Title1\n") rfl rfl).1,
   (c8_exit_reflects_io_only conn8 (str "OK 1") (str "0: [app1] Title1\n") rfl rfl).2.1
     rfl (by decide)⟩

end Waymux
